import Mathlib

/-!
Verification of the report-viewer dashboard (src/app.py).

The script is a synchronous load-then-render pipeline over a JSON report.
We shallowly embed the Python values the app manipulates (`PyVal`), the
numeric-coercion helpers (`_is_nan`, `_safe_int`, `_safe_float`,
`_safe_pct`), the JSON loader (`json_loads`, `load_report`, modelling the
CPython `json` module semantics), the player-label builder (`_label_row`),
the team-table sorting, the time-series downsampling, and the events tab.
Python floats are modelled as exact values (`PyFloat`): NaN, signed
infinity, or a rational; binary rounding of IEEE doubles is idealized away,
which is the standard choice for the structural properties checked here.
-/

/-- Model of a Python float: NaN, a signed infinity, or a finite value
(idealized as an exact rational). -/
inductive PyFloat where
  | nan : PyFloat
  | inf : Bool → PyFloat
  | fin : ℚ → PyFloat
deriving DecidableEq, Repr

/-- Model of the Python values produced by `json.loads` and handled by the
dashboard: `None`, `bool`, `int`, `float`, `str`, `list`, `dict` (with
string keys, as JSON objects give). -/
inductive PyVal where
  | none : PyVal
  | bool : Bool → PyVal
  | int : Int → PyVal
  | float : PyFloat → PyVal
  | str : String → PyVal
  | list : List PyVal → PyVal
  | obj : List (String × PyVal) → PyVal

/-- A dataframe/series row, keyed like the Python dict it came from.
`row.get(key, default)` is `lookupD`. -/
abbrev Row := List (String × PyVal)

/-- Models `r.get(key, default)` on a dict / pandas Series row. -/
def lookupD (r : Row) (k : String) (d : PyVal) : PyVal :=
  (List.lookup k r).getD d

/-- Models dict member lookup on a `PyVal.obj`. -/
def pyObjGet (v : PyVal) (k : String) : Option PyVal :=
  match v with
  | .obj l => List.lookup k l
  | _ => Option.none

/-! ## Character/string helpers shared by several Python builtins -/

/-- The ASCII whitespace stripped by Python `str.strip()`. -/
def isPySpace (c : Char) : Bool :=
  c = ' ' || c = '\t' || c = '\n' || c = '\r' || c = '\x0b' || c = '\x0c'

/-- Models `str.strip()` on the character list. -/
def pyStripList (l : List Char) : List Char :=
  ((l.dropWhile isPySpace).reverse.dropWhile isPySpace).reverse

/-- Models `str.strip()`. -/
def pyStripS (s : String) : String :=
  (pyStripList s.data).asString

/-- Splits a character list at every character satisfying `p`, keeping the
(possibly empty) chunks between separators.  Mirrors `str.split(sep)`. -/
def splitBy (p : Char → Bool) : List Char → List (List Char)
  | [] => [[]]
  | x :: r =>
    match splitBy p r with
    | [] => [[]]
    | q :: qs => if p x then [] :: q :: qs else (x :: q) :: qs

/-- Numeric value of a list of decimal digit characters. -/
def digitsToNat (l : List Char) : Nat :=
  l.foldl (fun a c => a * 10 + (c.toNat - 48)) 0

/-- Value and digit count of a nonempty all-digit chunk, else `none`. -/
def digitsCnt (l : List Char) : Option (Nat × Nat) :=
  if !l.isEmpty && l.all (·.isDigit) then some (digitsToNat l, l.length) else Option.none

/-- Digit groups possibly separated by single underscores, as accepted by
the Python `int()`/`float()` literal grammar (for example `1_000`). -/
def digitsUSCnt (l : List Char) : Option (Nat × Nat) :=
  if (splitBy (· == '_') l).all (fun p => !p.isEmpty) then
    digitsCnt (splitBy (· == '_') l).flatten
  else Option.none

/-- Underscore-tolerant digit-group value (drops the digit count). -/
def digitsUSVal (l : List Char) : Option Nat :=
  (digitsUSCnt l).map (·.1)

/-- Splits one optional leading sign; returns (isNegative, rest). -/
def splitSign : List Char → Bool × List Char
  | '-' :: r => (true, r)
  | '+' :: r => (false, r)
  | l => (false, l)

/-- Exponent markers of float literals. -/
def isEChar (c : Char) : Bool := c == 'e' || c == 'E'

/-- Mantissa of a Python float literal: `digits`, `digits.`, `.digits` or
`digits.digits` (with underscore groups allowed inside each digit run). -/
def parseMant (m : List Char) : Option ℚ :=
  match splitBy (· == '.') m with
  | [ip] => (digitsUSVal ip).map (fun n => (n : ℚ))
  | [ip, fp] =>
    if ip.isEmpty then
      (digitsUSCnt fp).map (fun vc => (vc.1 : ℚ) / 10 ^ vc.2)
    else if fp.isEmpty then
      (digitsUSVal ip).map (fun n => (n : ℚ))
    else
      match digitsUSVal ip, digitsUSCnt fp with
      | some a, some vc => some ((a : ℚ) + (vc.1 : ℚ) / 10 ^ vc.2)
      | _, _ => Option.none
  | _ => Option.none

/-- Signed exponent digits after the `e`/`E` marker. -/
def parseExpVal (l : List Char) : Option Int :=
  match splitSign l with
  | (negE, r) => (digitsUSVal r).map (fun n => if negE then -(n : Int) else (n : Int))

/-- Unsigned numeric part of a Python float literal (mantissa plus optional
exponent). -/
def parseNumberQ (r : List Char) : Option ℚ :=
  match splitBy isEChar r with
  | [m] => parseMant m
  | [m, ex] =>
    match parseMant m, parseExpVal ex with
    | some q, some e => some (q * (10 : ℚ) ^ e)
    | _, _ => Option.none
  | _ => Option.none

/-- Lower-cased characters, for the named special floats. -/
def lowerList (l : List Char) : List Char := l.map Char.toLower

/-- Models the Python builtin `float(str)`: optional surrounding
whitespace, optional sign, then either a decimal literal or one of the
named specials `inf`/`infinity`/`nan` (case-insensitive).  Finite values
are exact rationals; IEEE rounding/overflow of extreme literals is
idealized away. -/
def pyFloatOfString (s : String) : Option PyFloat :=
  match splitSign (pyStripList s.data) with
  | (neg, r) =>
    match parseNumberQ r with
    | some q => some (.fin (if neg then -q else q))
    | Option.none =>
      let lr := lowerList r
      if lr = "inf".data || lr = "infinity".data then some (.inf neg)
      else if lr = "nan".data then some .nan
      else Option.none

/-- Models the Python builtin `int(str)`: optional surrounding whitespace,
optional sign, then decimal digits (underscore groups allowed). -/
def pyIntOfString (s : String) : Option Int :=
  match splitSign (pyStripList s.data) with
  | (neg, r) => (digitsUSVal r).map (fun n => if neg then -(n : Int) else (n : Int))

/-- Truncation toward zero, as the Python builtin `int(float)` does. -/
def pyTrunc (q : ℚ) : Int := if q < 0 then ⌈q⌉ else ⌊q⌋

/-- Models the Python builtin `int(x)` on the values reachable here;
`Option.none` marks a raised `TypeError`/`ValueError`/`OverflowError`
(all caught by the callers below).  Python bools are ints. -/
def pyToInt : PyVal → Option Int
  | .bool b => some (if b then 1 else 0)
  | .int n => some n
  | .float (.fin q) => some (pyTrunc q)
  | .float _ => Option.none
  | .str s => pyIntOfString s
  | _ => Option.none

/-- Models the Python builtin `float(x)`; `Option.none` marks a raised
exception (caught by the callers below). -/
def pyToFloat : PyVal → Option PyFloat
  | .bool b => some (.fin (if b then 1 else 0))
  | .int n => some (.fin (n : ℚ))
  | .float f => some f
  | .str s => pyFloatOfString s
  | _ => Option.none

/-! ## The coercion helpers of src/app.py -/

/-- Embeds `_is_nan` (src/app.py:16): true for `None` and for float NaN.
The `try/except` around the body can never fire for these checks, so the
function is the plain disjunction. -/
def _is_nan : PyVal → Bool
  | .none => true
  | .float .nan => true
  | _ => false

/-- Embeds `_safe_int` (src/app.py:36): default for `None`/NaN, then
`int(x)` with every exception mapped to the default. -/
def _safe_int (x : PyVal) (default : Int) : Int :=
  if _is_nan x then default else (pyToInt x).getD default

/-- Embeds `_safe_float` (src/app.py:44): default for `None`/NaN, then
`float(x)` with every exception mapped to the default. -/
def _safe_float (x : PyVal) (default : PyFloat) : PyFloat :=
  if _is_nan x then default else (pyToFloat x).getD default

/-! ## Percent formatting (`_safe_pct`) -/

/-- Round half to even, the rounding used by `format(x, ".1f")` in its
correctly-rounded decimal conversion. -/
def rhe (x : ℚ) : Int :=
  if x - (⌊x⌋ : ℚ) < 1 / 2 then ⌊x⌋
  else if 1 / 2 < x - (⌊x⌋ : ℚ) then ⌊x⌋ + 1
  else if ⌊x⌋ % 2 = 0 then ⌊x⌋ else ⌊x⌋ + 1

/-- Decimal rendering of a finite float to one fractional digit, as
`f"{v:.1f}"` produces. -/
def fmt1 (q : ℚ) : String :=
  (if rhe (q * 10) < 0 then "-" else "")
    ++ toString ((rhe (q * 10)).natAbs / 10) ++ "." ++ toString ((rhe (q * 10)).natAbs % 10)

/-- Rendering of a float by `f"{v:.1f}"`, covering the specials. -/
def fmtDot1 : PyFloat → String
  | .nan => "nan"
  | .inf b => if b then "-inf" else "inf"
  | .fin q => fmt1 q

/-- Float multiplication by 100 as in `float(x)*100`. -/
def pyMul100 : PyFloat → PyFloat
  | .nan => .nan
  | .inf b => .inf b
  | .fin q => .fin (q * 100)

/-- Embeds `_safe_pct` (src/app.py:27): `"-"` for `None`/NaN, else
`f"{float(x)*100:.1f}%"` with exceptions mapped to `"-"`. -/
def _safe_pct (x : PyVal) : String :=
  if _is_nan x then "-"
  else
    match pyToFloat x with
    | some f => fmtDot1 (pyMul100 f) ++ "%"
    | Option.none => "-"

/-! ## The JSON loader (`load_report`, src/app.py:52)

`json.loads` is modelled after the CPython `json` module: beyond RFC JSON
it accepts the bareword constants `NaN`, `Infinity` and `-Infinity`
(its documented default behaviour), and numbers follow the scanner regex
`-?(0|[1-9]\d*)(\.\d+)?([eE][+-]?\d+)?`.  `Option.none` marks a raised
`JSONDecodeError`. -/

/-- JSON whitespace skipped between tokens. -/
def jsonWs (c : Char) : Bool := c = ' ' || c = '\t' || c = '\n' || c = '\r'

/-- Skips JSON whitespace. -/
def skipWs (l : List Char) : List Char := l.dropWhile jsonWs

/-- One escape character of a JSON string. -/
def escChar (c : Char) : Option Char :=
  if c = '"' then some '"'
  else if c = '\\' then some '\\'
  else if c = '/' then some '/'
  else if c = 'b' then some '\x08'
  else if c = 'f' then some '\x0c'
  else if c = 'n' then some '\n'
  else if c = 'r' then some '\r'
  else if c = 't' then some '\t'
  else Option.none

/-- Hex digit value. -/
def hexVal (c : Char) : Option Nat :=
  if c.isDigit then some (c.toNat - 48)
  else if 'a' ≤ c && c ≤ 'f' then some (c.toNat - 97 + 10)
  else if 'A' ≤ c && c ≤ 'F' then some (c.toNat - 65 + 10)
  else Option.none

/-- Body of a JSON string after the opening quote; returns the decoded
characters and the input after the closing quote.  Surrogate-pair joining
of `\uXXXX` escapes is not modelled (no claim depends on it). -/
def parseJStrAux : List Char → List Char → Option (List Char × List Char)
  | acc, '"' :: r => some (acc.reverse, r)
  | acc, '\\' :: 'u' :: h1 :: h2 :: h3 :: h4 :: r =>
    match hexVal h1, hexVal h2, hexVal h3, hexVal h4 with
    | some a, some b, some c, some d =>
      parseJStrAux (Char.ofNat (((a * 16 + b) * 16 + c) * 16 + d) :: acc) r
    | _, _, _, _ => Option.none
  | acc, '\\' :: e :: r =>
    match escChar e with
    | some c => parseJStrAux (c :: acc) r
    | Option.none => Option.none
  | acc, c :: r => if c.toNat < 32 then Option.none else parseJStrAux (c :: acc) r
  | _, [] => Option.none

/-- JSON number per the CPython scanner regex; returns a Python int when
there is no fraction and no exponent, else a float. -/
def parseJNum (l : List Char) : Option (PyVal × List Char) :=
  let sp := match l with
    | '-' :: r => (true, r)
    | _ => (false, l)
  match sp.2 with
  | c :: r =>
    if c = '0' ∨ (c.isDigit ∧ c ≠ '0') then
      let ds := if c = '0' then [c] else (c :: r).takeWhile (·.isDigit)
      let rest := if c = '0' then r else (c :: r).dropWhile (·.isDigit)
      let ip : Nat := digitsToNat ds
      let fo : Option (ℚ × List Char) :=
        match rest with
        | '.' :: fr =>
          let fds := fr.takeWhile (·.isDigit)
          if fds.isEmpty then Option.none
          else some ((digitsToNat fds : ℚ) / 10 ^ fds.length, fr.dropWhile (·.isDigit))
        | _ => Option.none
      let rest2 := match fo with
        | some p => p.2
        | Option.none => rest
      let eo : Option (Int × List Char) :=
        match rest2 with
        | e :: er =>
          if isEChar e then
            let se := match er with
              | '-' :: t => (true, t)
              | '+' :: t => (false, t)
              | _ => (false, er)
            let eds := se.2.takeWhile (·.isDigit)
            if eds.isEmpty then Option.none
            else some ((if se.1 then -(digitsToNat eds : Int) else (digitsToNat eds : Int)),
                       se.2.dropWhile (·.isDigit))
          else Option.none
        | _ => Option.none
      let rest3 := match eo with
        | some p => p.2
        | Option.none => rest2
      match fo, eo with
      | Option.none, Option.none =>
        some (.int (if sp.1 then -(ip : Int) else (ip : Int)), rest3)
      | _, _ =>
        let mant : ℚ := (ip : ℚ) + (match fo with
          | some p => p.1
          | Option.none => 0)
        let ex : Int := match eo with
          | some p => p.1
          | Option.none => 0
        let v : ℚ := mant * (10 : ℚ) ^ ex
        some (.float (.fin (if sp.1 then -v else v)), rest3)
    else Option.none
  | [] => Option.none

/-- Replaces an earlier binding of `k`, else appends — dict insertion
order and override semantics of the CPython object decoder. -/
def dictInsert (acc : List (String × PyVal)) (k : String) (v : PyVal) :
    List (String × PyVal) :=
  if acc.any (fun p => p.1 = k) then acc.map (fun p => if p.1 = k then (k, v) else p)
  else acc ++ [(k, v)]

mutual

/-- One JSON value at the head of the input (CPython `scan_once`). -/
def parseVal : Nat → List Char → Option (PyVal × List Char)
  | 0, _ => Option.none
  | Nat.succ fuel, l =>
    match l with
    | '{' :: r =>
      (match skipWs r with
       | '}' :: r2 => some (.obj [], r2)
       | r2 => parseMembers fuel r2 [])
    | '[' :: r =>
      (match skipWs r with
       | ']' :: r2 => some (.list [], r2)
       | r2 => parseItems fuel r2 [])
    | '"' :: r =>
      (match parseJStrAux [] r with
       | some (cs, rest) => some (.str cs.asString, rest)
       | Option.none => Option.none)
    | 't' :: 'r' :: 'u' :: 'e' :: r => some (.bool true, r)
    | 'f' :: 'a' :: 'l' :: 's' :: 'e' :: r => some (.bool false, r)
    | 'n' :: 'u' :: 'l' :: 'l' :: r => some (.none, r)
    | 'N' :: 'a' :: 'N' :: r => some (.float .nan, r)
    | 'I' :: 'n' :: 'f' :: 'i' :: 'n' :: 'i' :: 't' :: 'y' :: r => some (.float (.inf false), r)
    | '-' :: 'I' :: 'n' :: 'f' :: 'i' :: 'n' :: 'i' :: 't' :: 'y' :: r => some (.float (.inf true), r)
    | _ => parseJNum l

/-- Members of a JSON object after `{` (first key expected at the head). -/
def parseMembers : Nat → List Char → List (String × PyVal) →
    Option (PyVal × List Char)
  | 0, _, _ => Option.none
  | Nat.succ fuel, l, acc =>
    match l with
    | '"' :: r =>
      (match parseJStrAux [] r with
       | some (k, r2) =>
         (match skipWs r2 with
          | ':' :: r3 =>
            (match parseVal fuel (skipWs r3) with
             | some (v, r4) =>
               (match skipWs r4 with
                | ',' :: r5 => parseMembers fuel (skipWs r5) (dictInsert acc k.asString v)
                | '}' :: r5 => some (.obj (dictInsert acc k.asString v), r5)
                | _ => Option.none)
             | Option.none => Option.none)
          | _ => Option.none)
       | Option.none => Option.none)
    | _ => Option.none

/-- Items of a JSON array after `[` (first item expected at the head). -/
def parseItems : Nat → List Char → List PyVal → Option (PyVal × List Char)
  | 0, _, _ => Option.none
  | Nat.succ fuel, l, acc =>
    match parseVal fuel l with
    | some (v, r) =>
      (match skipWs r with
       | ',' :: r2 => parseItems fuel (skipWs r2) (acc ++ [v])
       | ']' :: r2 => some (.list (acc ++ [v]), r2)
       | _ => Option.none)
    | Option.none => Option.none

end

/-- Models `json.loads`: skip leading whitespace, scan one value, accept
only trailing whitespace after it. -/
def json_loads (s : String) : Option PyVal :=
  match parseVal (2 * s.data.length + 2) (skipWs s.data) with
  | some (v, rest) => if (skipWs rest).isEmpty then some v else Option.none
  | Option.none => Option.none

/-- Models Python `str.replace(old, new)` (leftmost, non-overlapping), for
nonempty `old`. -/
def pyReplace (s old new : String) : String :=
  String.intercalate new (s.splitOn old)

/-- Embeds `load_report` (src/app.py:52): parse; on failure substitute the
bareword NaN tokens with null and parse once more. -/
def load_report (text : String) : Option PyVal :=
  match json_loads text with
  | some v => some v
  | Option.none =>
    json_loads (pyReplace (pyReplace text ": NaN" ": null") ": nan" ": null")

/-! ## Player labels (`_label_row`, src/app.py:200) -/

/-- Python `str(v)` as used inside the f-string of `_label_row`.  String
and int fields render exactly; the container/float cases do not occur in
the label fields of this dashboard, and their rendering is only sketched. -/
def pyStr : PyVal → String
  | .str s => s
  | .int n => toString n
  | .bool b => if b then "True" else "False"
  | .none => "None"
  | .float .nan => "nan"
  | .float (.inf b) => if b then "-inf" else "inf"
  | .float (.fin q) => toString q.num ++ (if q.den = 1 then ".0" else "/" ++ toString q.den)
  | .list _ => "[…]"
  | .obj _ => "\x7b…\x7d"

/-- Leftmost, non-overlapping replacement of two spaces by one, the
specialization of `str.replace("  ", " ")` used by `_label_row`. -/
def replaceDSList : List Char → List Char
  | [] => []
  | [c] => [c]
  | c1 :: c2 :: rest =>
    if c1 = ' ' ∧ c2 = ' ' then ' ' :: replaceDSList rest
    else c1 :: replaceDSList (c2 :: rest)

/-- String form of `replaceDSList`. -/
def pyReplaceDS (s : String) : String := (replaceDSList s.data).asString

/-- The f-string skeleton of `_label_row` before replace/strip. -/
def labelRaw (team jtxt ntxt tid : String) : String :=
  "[" ++ team ++ "] " ++ jtxt ++ " " ++ ntxt ++ " (tid=" ++ tid ++ ")"

/-- Embeds `_label_row` (src/app.py:200): bracketed team, optional
`#jersey` for a nonempty jersey string, the player name or `Unknown`, and
the track id; double spaces collapsed once and ends stripped. -/
def _label_row (r : Row) : String :=
  let team := pyStr (lookupD r "team_name" (.str "-"))
  let tid := pyStr (lookupD r "track_id" (.str "-"))
  let jtxt :=
    match lookupD r "jersey" PyVal.none with
    | .str s => if pyStripS s ≠ "" then "#" ++ s else ""
    | _ => ""
  let ntxt :=
    match lookupD r "player_name" PyVal.none with
    | .str s => if pyStripS s ≠ "" then s else "Unknown"
    | _ => "Unknown"
  pyStripS (pyReplaceDS (labelRaw team jtxt ntxt tid))

/-- No two adjacent spaces. -/
def noDSList : List Char → Bool
  | c1 :: c2 :: rest => !(c1 = ' ' && c2 = ' ') && noDSList (c2 :: rest)
  | _ => true

/-- First and last characters (when present) are not Python whitespace. -/
def cleanEdges (l : List Char) : Bool :=
  (l.head?.all (fun c => !isPySpace c)) && (l.getLast?.all (fun c => !isPySpace c))

/-- A label string that the replace/strip post-processing leaves intact. -/
def cleanLabel (s : String) : Bool := noDSList s.data && cleanEdges s.data

/-! ## Events tab (src/app.py:91 and 316) -/

/-- What the events tab displays: the "no events" info placeholder or the
dataframe of the event rows. -/
inductive EventsView where
  | placeholder : EventsView
  | table : List PyVal → EventsView

/-- Embeds `df_or_empty` (src/app.py:65): `None` gives an empty frame, a
list gives its rows, a dict gives one row; `Option.none` marks the
`pd.DataFrame` constructor raising on a scalar. -/
def df_or_empty : PyVal → Option (List PyVal)
  | .none => some []
  | .list l => some l
  | .obj d => some [.obj d]
  | _ => Option.none

/-- Embeds the events tab body (src/app.py:319): the placeholder for an
empty frame, else the dataframe rendered as-is. -/
def tab_events (rows : List PyVal) : EventsView :=
  if rows.length = 0 then .placeholder else .table rows

/-- The events pipeline: `events_df = df_or_empty(report.get("event_log", []))`
(src/app.py:91) followed by the tab body. -/
def renderEvents (report : Row) : Option EventsView :=
  (df_or_empty (lookupD report "event_log" (.list []))).map tab_events

/-! ## Teams tab (src/app.py:162) -/

/-- The fixed selectbox options of the teams tab (src/app.py:169). -/
def teamSortOptions : List String :=
  ["team_total_dist", "team_avg_speed", "team_max_speed", "team_FG_pct",
   "avg_spacing", "avg_spread", "var_spread"]

/-- The selectbox starts at `index=0` (src/app.py:180). -/
def defaultSortIndex : Nat := 0

/-- The ascending checkbox starts unchecked (src/app.py:182). -/
def defaultAscending : Bool := false

/-- One cell put through `pd.to_numeric(..., errors="coerce")`
(src/app.py:94): numbers pass through, everything unparseable becomes
NaN. -/
def toNumericCell : PyVal → PyFloat
  | .int n => .fin (n : ℚ)
  | .float f => f
  | .bool b => .fin (if b then 1 else 0)
  | .str s => (pyFloatOfString s).getD .nan
  | _ => .nan

/-- Sort encoding of one numeric cell: finite values in order, the
matching infinity at either end, NaN always last (`na_position="last"`),
and negation of the value for a descending sort. -/
def encCell (asc : Bool) : PyFloat → Lex (ℚ × ℚ)
  | .nan => toLex (2, 0)
  | .inf b => toLex (if b = asc then -1 else 1, 0)
  | .fin q => toLex (0, if asc then q else -q)

/-- Sort key of a row for `sort_values(key, ascending=asc)`. -/
def cellKey (key : String) (asc : Bool) (r : Row) : Lex (ℚ × ℚ) :=
  encCell asc (toNumericCell (lookupD r key PyVal.none))

/-- The comparison used to model `sort_values` on one column. -/
def leCell (key : String) (asc : Bool) (a b : Row) : Prop :=
  cellKey key asc a ≤ cellKey key asc b

instance (key : String) (asc : Bool) : DecidableRel (leCell key asc) :=
  fun _ _ => inferInstanceAs (Decidable (_ ≤ _))

instance (key : String) (asc : Bool) : IsTotal Row (leCell key asc) :=
  ⟨fun a b => le_total (cellKey key asc a) (cellKey key asc b)⟩

instance (key : String) (asc : Bool) : IsTrans Row (leCell key asc) :=
  ⟨fun _ _ _ hab hbc => le_trans hab hbc⟩

/-- Embeds the teams tab body (src/app.py:184): copy the frame and sort it
by the selected key when that column exists. -/
def tab_teams (sortKey : String) (ascending : Bool) (hasCol : Bool) (rows : List Row) :
    List Row :=
  if hasCol then List.insertionSort (leCell sortKey ascending) rows else rows

/-- Finite value of the `team_total_dist` cell (0 for the non-finite
cases, which the default-sort theorem excludes). -/
def teamDistVal (r : Row) : ℚ :=
  match toNumericCell (lookupD r "team_total_dist" PyVal.none) with
  | .fin q => q
  | _ => 0

/-! ## Time-series downsampling (src/app.py:277) -/

/-- `iloc[::k]`: every k-th element, starting at index 0. -/
def everyNth (k : Nat) : List α → List α
  | [] => []
  | a :: rest => a :: everyNth k (rest.drop (k - 1))
termination_by l => l.length
decreasing_by simp only [List.length_cons, List.length_drop]; omega

/-- Lexicographic (team_id, frame_idx) key used by
`sort_values(["team_id", "frame_idx"])`, with per-column NaN-last
encoding. -/
def tsKey (r : Row) : Lex (Lex (ℚ × ℚ) × Lex (ℚ × ℚ)) :=
  toLex (cellKey "team_id" true r, cellKey "frame_idx" true r)

/-- Row comparison for the time-series sort. -/
def leTF (a b : Row) : Prop := tsKey a ≤ tsKey b

instance : DecidableRel leTF := fun _ _ => inferInstanceAs (Decidable (_ ≤ _))

instance : IsTotal Row leTF := ⟨fun a b => le_total (tsKey a) (tsKey b)⟩

instance : IsTrans Row leTF := ⟨fun _ _ _ hab hbc => le_trans hab hbc⟩

/-- Frame-only comparison used when the `team_id` column is absent. -/
def leF (a b : Row) : Prop := cellKey "frame_idx" true a ≤ cellKey "frame_idx" true b

instance : DecidableRel leF := fun _ _ => inferInstanceAs (Decidable (_ ≤ _))

/-- Embeds the downsampling step of the time-series tab (src/app.py:278):
when the filtered frame has more than `maxRows` rows and a `frame_idx`
column, sort by (team_id, frame_idx) — by frame_idx alone without a
team_id column — and keep every `max 1 (count / maxRows)`-th row; else
leave the frame untouched. -/
def downsampleTS (hasFrame hasTeam : Bool) (maxRows : Nat) (ts : List Row) : List Row :=
  if maxRows < ts.length ∧ hasFrame = true then
    let sorted :=
      if hasTeam then List.insertionSort leTF ts else List.insertionSort leF ts
    everyNth (max 1 (ts.length / maxRows)) sorted
  else ts

/-! ## Players tab selection (src/app.py:225) -/

/-- Embeds `filtered[filtered["label"] == sel].iloc[0]` (src/app.py:226):
the first row of the filtered frame whose label equals the selection;
`Option.none` marks the `iloc[0]` IndexError on an empty match. -/
def selectPlayer (sel : String) (rows : List Row) : Option Row :=
  (rows.filter (fun r => _label_row r == sel)).head?

/-- The team filter applied before selection (src/app.py:220). -/
def filterTeam (teamSel : String) (rows : List Row) : List Row :=
  if teamSel = "(All)" then rows
  else rows.filter (fun r =>
    match lookupD r "team_name" PyVal.none with
    | .str t => t = teamSel
    | _ => false)


/-! ## Inputs used by the claim theorems -/

/-- Follows the wording of the specification (not the source): a value
that is a finite number — an int, a finite float, or a bool (a Python
bool is an int). -/
def specFiniteNumber : PyVal → Bool
  | .int _ => true
  | .bool _ => true
  | .float (.fin _) => true
  | _ => false

/-- A report file whose only non-RFC content is a bareword NaN token. -/
def jsonNaNText : String := "\x7b\"a\": NaN\x7d"

/-- A shot-event row carrying frame bounds, as the pipeline writes it. -/
def evC6 : PyVal :=
  PyVal.obj [("shooter_track_id", PyVal.int 5), ("start_frame", PyVal.int 30),
             ("end_frame", PyVal.int 60), ("made", PyVal.bool true)]

/-- A player row with a name. -/
def rowDup1 : Row :=
  [("team_name", PyVal.str "Red"), ("jersey", PyVal.str "7"),
   ("player_name", PyVal.str "Kim"), ("track_id", PyVal.int 3)]

/-- The same player row repeated (duplicate track_id, identical label). -/
def rowDup2 : Row := rowDup1

/-- A distinct player row. -/
def rowOther : Row :=
  [("team_name", PyVal.str "Blue"), ("jersey", PyVal.str "9"),
   ("player_name", PyVal.str "Lee"), ("track_id", PyVal.int 5)]

/-- The player row of the spec example with a null name. -/
def rowC3null : Row :=
  [("team_name", PyVal.str "Red"), ("jersey", PyVal.str "7"),
   ("player_name", PyVal.none), ("track_id", PyVal.int 3)]

/-- Team-summary rows with finite total distances. -/
def teamRowA : Row :=
  [("team_id", PyVal.int 0), ("team_name", PyVal.str "Red"),
   ("team_total_dist", PyVal.int 120)]

/-- Second team-summary row. -/
def teamRowB : Row :=
  [("team_id", PyVal.int 1), ("team_name", PyVal.str "Blue"),
   ("team_total_dist", PyVal.int 300)]

/-- A synthetic time series of n (team_id, frame_idx) rows. -/
def mkTS (n : Nat) : List Row :=
  (List.range n).map (fun (i : Nat) =>
    [("team_id", PyVal.int ((i : Int) % 2)), ("frame_idx", PyVal.int (i : Int))])

/-- A time series whose rows lack a frame_idx column. -/
def tsNoFrame : List Row :=
  [[("team_name", PyVal.str "Red"), ("time_s", PyVal.int 1)],
   [("team_name", PyVal.str "Red"), ("time_s", PyVal.int 2)]]


/-! ## Supporting lemmas -/

theorem replaceDSList_eq_of_noDS : ∀ l : List Char, noDSList l = true → replaceDSList l = l
  | [], _ => rfl
  | [c], _ => rfl
  | c1 :: c2 :: rest, h => by
    simp only [noDSList, Bool.and_eq_true, Bool.not_eq_true'] at h
    have hne : ¬(c1 = ' ' ∧ c2 = ' ') := by
      intro ⟨h1, h2⟩
      simp [h1, h2] at h
    simp only [replaceDSList, if_neg hne]
    rw [replaceDSList_eq_of_noDS (c2 :: rest) h.2]

theorem dropWhile_eq_self_of_head (p : Char → Bool) (l : List Char)
    (h : l.head?.all (fun c => !p c) = true) : l.dropWhile p = l := by
  cases l with
  | nil => rfl
  | cons c r =>
    simp only [List.head?_cons, Option.all_some, Bool.not_eq_true'] at h
    simp [List.dropWhile_cons, h]

theorem pyStripList_eq_of_cleanEdges (l : List Char) (h : cleanEdges l = true) :
    pyStripList l = l := by
  simp only [cleanEdges, Bool.and_eq_true] at h
  unfold pyStripList
  rw [dropWhile_eq_self_of_head _ _ h.1]
  rw [dropWhile_eq_self_of_head _ _ (by simpa [List.head?_reverse] using h.2)]
  exact List.reverse_reverse l

theorem asString_data (l : List Char) : (l.asString).data = l := rfl

theorem data_asString (s : String) : (s.data).asString = s := rfl

theorem pyStrip_pyReplaceDS_of_clean (s : String) (h : cleanLabel s = true) :
    pyStripS (pyReplaceDS s) = s := by
  simp only [cleanLabel, Bool.and_eq_true] at h
  unfold pyStripS pyReplaceDS
  rw [asString_data, replaceDSList_eq_of_noDS _ h.1, pyStripList_eq_of_cleanEdges _ h.2,
    data_asString]
/-! ## Lemmas about `everyNth` -/

theorem everyNth_length (k : Nat) (hk : 0 < k) :
    ∀ n (l : List α), l.length ≤ n → (everyNth k l).length = (l.length + k - 1) / k := by
  intro n
  induction n with
  | zero =>
    intro l hl
    have : l = [] := List.length_eq_zero.mp (Nat.le_zero.mp hl)
    subst this
    simp [everyNth, Nat.div_eq_of_lt (by omega : k - 1 < k)]
  | succ n ih =>
    intro l hl
    match l with
    | [] => simp [everyNth, Nat.div_eq_of_lt (by omega : k - 1 < k)]
    | a :: rest =>
      rw [everyNth]
      have hdl : (rest.drop (k - 1)).length = rest.length - (k - 1) :=
        List.length_drop _ _
      have hrec := ih (rest.drop (k - 1))
        (by simp only [List.length_cons] at hl; omega)
      simp only [List.length_cons, hrec, hdl]
      rw [show rest.length + 1 + k - 1 = rest.length + k from by omega,
        Nat.add_div_right _ hk]
      rcases Nat.lt_or_ge rest.length (k - 1) with h | h
      · rw [show rest.length - (k - 1) + k - 1 = k - 1 from by omega,
          Nat.div_eq_of_lt (by omega : k - 1 < k),
          Nat.div_eq_of_lt (by omega : rest.length < k)]
      · rw [show rest.length - (k - 1) + k - 1 = rest.length from by omega]

theorem everyNth_sublist (k : Nat) :
    ∀ n (l : List α), l.length ≤ n → List.Sublist (everyNth k l) l := by
  intro n
  induction n with
  | zero =>
    intro l hl
    have : l = [] := List.length_eq_zero.mp (Nat.le_zero.mp hl)
    subst this
    simp [everyNth]
  | succ n ih =>
    intro l hl
    match l with
    | [] => simp [everyNth]
    | a :: rest =>
      rw [everyNth]
      refine List.Sublist.cons₂ a ?_
      exact (ih (rest.drop (k - 1))
        (by simp only [List.length_cons] at hl; simp only [List.length_drop]; omega)).trans
        (List.drop_sublist _ _)

theorem everyNth_sorted {r : Row → Row → Prop} (k : Nat) (l : List Row)
    (h : List.Sorted r l) : List.Sorted r (everyNth k l) :=
  List.Pairwise.sublist (everyNth_sublist k l.length l le_rfl) h

/-! ## Lemmas about the numeric-string parsers -/

theorem splitBy_ne_nil (p : Char → Bool) : ∀ l, splitBy p l ≠ [] := by
  intro l
  induction l with
  | nil => simp [splitBy]
  | cons x r ih =>
    simp only [splitBy]
    match hr : splitBy p r with
    | [] => exact absurd hr ih
    | q :: qs =>
      by_cases hx : p x <;> simp [hx]

theorem mem_flatten_splitBy (p : Char → Bool) :
    ∀ l (c : Char), c ∈ l → p c = true ∨ c ∈ (splitBy p l).flatten := by
  intro l
  induction l with
  | nil => simp
  | cons x r ih =>
    intro c hc
    simp only [splitBy]
    match hr : splitBy p r with
    | [] => exact absurd hr (splitBy_ne_nil p r)
    | q :: qs =>
      rcases List.mem_cons.mp hc with hcx | hcr
      · subst hcx
        by_cases hx : p c
        · exact Or.inl hx
        · simp [hx]
      · rcases ih c hcr with hp | hm
        · exact Or.inl hp
        · rw [hr] at hm
          by_cases hx : p x <;> simp [hx] <;> simp at hm <;> tauto

theorem splitBy_eq_self (p : Char → Bool) :
    ∀ l, (∀ c ∈ l, p c = false) → splitBy p l = [l] := by
  intro l
  induction l with
  | nil => intro _; rfl
  | cons x r ih =>
    intro h
    have hr : splitBy p r = [r] := ih (fun c hc => h c (List.mem_cons_of_mem _ hc))
    simp only [splitBy, hr]
    simp [h x (List.mem_cons_self _ _)]

theorem digitsCnt_all_digits {l : List Char} {vc : Nat × Nat}
    (h : digitsCnt l = some vc) : ∀ c ∈ l, c.isDigit = true := by
  unfold digitsCnt at h
  split at h
  · next hcond =>
    simp only [Bool.and_eq_true] at hcond
    exact fun c hc => by
      have := List.all_eq_true.mp hcond.2 c hc
      simpa using this
  · exact absurd h (by simp)

theorem digitsUSCnt_chars {l : List Char} {vc : Nat × Nat}
    (h : digitsUSCnt l = some vc) : ∀ c ∈ l, c.isDigit = true ∨ c = '_' := by
  unfold digitsUSCnt at h
  split at h
  · next hcond =>
    intro c hc
    rcases mem_flatten_splitBy (· == '_') l c hc with hp | hm
    · exact Or.inr (by simpa using hp)
    · exact Or.inl (digitsCnt_all_digits h c hm)
  · exact absurd h (by simp)

theorem digit_or_us_not_special {c : Char} (h : c.isDigit = true ∨ c = '_') :
    isEChar c = false ∧ (c == '.') = false := by
  rcases h with hd | hu
  · refine ⟨?_, ?_⟩
    · cases he : isEChar c
      · rfl
      · exfalso
        unfold isEChar at he
        rcases (Bool.or_eq_true _ _).mp he with h1 | h1
        · rw [beq_iff_eq] at h1
          subst h1
          exact absurd hd (by decide)
        · rw [beq_iff_eq] at h1
          subst h1
          exact absurd hd (by decide)
    · cases hdot : (c == '.')
      · rfl
      · exfalso
        rw [beq_iff_eq] at hdot
        subst hdot
        exact absurd hd (by decide)
  · subst hu
    exact ⟨by decide, by decide⟩

theorem parseMant_of_digitsUS {r : List Char} {n : Nat}
    (h : digitsUSVal r = some n) : parseMant r = some (n : ℚ) := by
  have hcnt : ∃ vc : Nat × Nat, digitsUSCnt r = some vc ∧ vc.1 = n := by
    unfold digitsUSVal at h
    match hc : digitsUSCnt r with
    | some vc => exact ⟨vc, rfl, by rw [hc] at h; simpa using h⟩
    | Option.none => rw [hc] at h; simp at h
  obtain ⟨vc, hvc, hv1⟩ := hcnt
  have hchars := digitsUSCnt_chars hvc
  have hsplit : splitBy (· == '.') r = [r] :=
    splitBy_eq_self _ r (fun c hc => (digit_or_us_not_special (hchars c hc)).2)
  unfold parseMant
  rw [hsplit]
  simp [h]

theorem parseNumberQ_of_digitsUS {r : List Char} {n : Nat}
    (h : digitsUSVal r = some n) : parseNumberQ r = some (n : ℚ) := by
  have hcnt : ∃ vc : Nat × Nat, digitsUSCnt r = some vc := by
    unfold digitsUSVal at h
    match hc : digitsUSCnt r with
    | some vc => exact ⟨vc, rfl⟩
    | Option.none => rw [hc] at h; simp at h
  obtain ⟨vc, hvc⟩ := hcnt
  have hchars := digitsUSCnt_chars hvc
  have hsplit : splitBy isEChar r = [r] :=
    splitBy_eq_self _ r (fun c hc => (digit_or_us_not_special (hchars c hc)).1)
  unfold parseNumberQ
  rw [hsplit]
  simp [parseMant_of_digitsUS h]

/-- A string accepted by the Python `int()` builtin is accepted by the
`float()` builtin as well. -/
theorem pyFloatOfString_of_pyIntOfString {s : String} {n : Int}
    (h : pyIntOfString s = some n) : pyFloatOfString s ≠ Option.none := by
  unfold pyIntOfString at h
  unfold pyFloatOfString
  match hs : splitSign (pyStripList s.data) with
  | (neg, r) =>
    rw [hs] at h
    simp only at h ⊢
    match hd : digitsUSVal r with
    | some m =>
      rw [parseNumberQ_of_digitsUS hd]
      simp
    | Option.none => rw [hd] at h; simp at h

/-- When the Python `float()` builtin raises on a value, so does `int()`. -/
theorem pyToInt_none_of_pyToFloat_none {v : PyVal}
    (h : pyToFloat v = Option.none) : pyToInt v = Option.none := by
  match v with
  | .bool b => simp [pyToFloat] at h
  | .int n => simp [pyToFloat] at h
  | .float f => simp [pyToFloat] at h
  | .none => rfl
  | .list l => rfl
  | .obj d => rfl
  | .str s =>
    simp only [pyToFloat] at h
    simp only [pyToInt]
    match hi : pyIntOfString s with
    | some m => exact absurd h (pyFloatOfString_of_pyIntOfString hi)
    | Option.none => rfl
/-- Round half to even never goes below the floor, so it is nonnegative on
nonnegative input. -/
theorem rhe_nonneg {x : ℚ} (hx : 0 ≤ x) : 0 ≤ rhe x := by
  have hf : (0 : ℤ) ≤ ⌊x⌋ := Int.floor_nonneg.mpr hx
  unfold rhe
  split_ifs <;> omega

/-! ## Claim C1 -/

/-- Claim C1, counterexample: positive infinity is not a finite number and
not a string, yet `_safe_float` returns it unchanged instead of the
supplied default (`_is_nan(inf)` is false and `float(inf)` succeeds), so
the claim as stated fails.  A bare `Infinity` token is accepted by
`json.loads`, so the input is reachable from a report file. -/
theorem C1_counterexample :
    specFiniteNumber (PyVal.float (PyFloat.inf false)) = false
    ∧ _safe_float (PyVal.float (PyFloat.inf false)) (PyFloat.fin 7) = PyFloat.inf false
    ∧ PyFloat.inf false ≠ PyFloat.fin 7 :=
  ⟨rfl, rfl, fun h => PyFloat.noConfusion h⟩

/-- Claim C1 (amended): both coercers are total, and whenever the Python
`float()` builtin would raise on the value — so for every input that is
neither a number nor a numeric string — `_safe_int` and `_safe_float`
return the caller-supplied default.  (Non-finite floats are the one
exception to the original wording: NaN maps to the default in both, while
`_safe_float` passes infinities through.) -/
theorem C1_coercion_default (v : PyVal) (di : Int) (df : PyFloat)
    (h : pyToFloat v = Option.none) :
    _safe_int v di = di ∧ _safe_float v df = df := by
  have hi := pyToInt_none_of_pyToFloat_none h
  unfold _safe_int _safe_float
  cases hv : _is_nan v <;> simp [hv, h, hi]

/-- Claim C1, witness at the non-numeric string "abc". -/
theorem C1_coercion_default_witness :
    pyToFloat (PyVal.str "abc") = Option.none
    ∧ _safe_int (PyVal.str "abc") 5 = 5
    ∧ _safe_float (PyVal.str "abc") (PyFloat.fin 2) = PyFloat.fin 2 := by
  have h : pyToFloat (PyVal.str "abc") = Option.none := by decide
  obtain ⟨h1, h2⟩ := C1_coercion_default (PyVal.str "abc") 5 (PyFloat.fin 2) h
  exact ⟨h, h1, h2⟩

/-! ## Claim C2 -/

/-- Claim C2: on a file whose only defect is a bareword NaN, the first,
standard parse already succeeds — CPython `json.loads` accepts `NaN` by
default — so the fallback substitution never runs and the affected field
loads as float NaN, not as null.  This contradicts the claim (and the
comment in src/app.py:56-61, which asserts the first parse fails and the
field becomes null). -/
theorem C2_nan_first_parse :
    json_loads jsonNaNText = some (PyVal.obj [("a", PyVal.float PyFloat.nan)])
    ∧ load_report jsonNaNText = some (PyVal.obj [("a", PyVal.float PyFloat.nan)])
    ∧ PyVal.float PyFloat.nan ≠ PyVal.none :=
  ⟨rfl, rfl, fun h => PyVal.noConfusion h⟩

/-! ## Claim C5 -/

/-- Claim C5: for every ratio in [0,1], `_safe_pct` renders the value
times 100 with exactly one decimal digit and a percent suffix; null and
NaN render as "-"; 0.473 renders as "47.3%". -/
theorem C5_safe_pct (q : ℚ) (h0 : 0 ≤ q) (h1 : q ≤ 1) :
    (∃ a b : Nat, b < 10 ∧
      _safe_pct (PyVal.float (PyFloat.fin q)) = toString a ++ "." ++ toString b ++ "%")
    ∧ _safe_pct PyVal.none = "-"
    ∧ _safe_pct (PyVal.float PyFloat.nan) = "-"
    ∧ _safe_pct (PyVal.float (PyFloat.fin (473 / 1000))) = "47.3%" := by
  refine ⟨?_, rfl, rfl, ?_⟩
  · have hn : 0 ≤ rhe (q * 100 * 10) := rhe_nonneg (by positivity)
    refine ⟨(rhe (q * 100 * 10)).natAbs / 10, (rhe (q * 100 * 10)).natAbs % 10,
      Nat.mod_lt _ (by norm_num), ?_⟩
    show fmt1 (q * 100) ++ "%" = _
    unfold fmt1
    rw [if_neg (not_lt.mpr hn)]
    simp
  · have e1 : (473 / 1000 : ℚ) * 100 * 10 = 473 := by norm_num
    have e2 : rhe (473 : ℚ) = 473 := by
      unfold rhe
      norm_num
    show fmt1 ((473 / 1000 : ℚ) * 100) ++ "%" = "47.3%"
    unfold fmt1
    rw [e1, e2]
    decide

/-- Claim C5, witness at the ratio one half. -/
theorem C5_safe_pct_witness :
    (0 : ℚ) ≤ 1 / 2
    ∧ (∃ a b : Nat, b < 10 ∧
        _safe_pct (PyVal.float (PyFloat.fin (1 / 2))) = toString a ++ "." ++ toString b ++ "%")
    ∧ _safe_pct PyVal.none = "-" := by
  have h := C5_safe_pct (1 / 2) (by norm_num) (by norm_num)
  exact ⟨by norm_num, h.1, h.2.1⟩

/-! ## Claim C3 -/

/-- Claim C3, counterexample: on the spec example row with a null
player_name, `_label_row` keeps the jersey and substitutes "Unknown" for
the name — it does not collapse to "[Red] tid=3" as claimed. -/
theorem C3_counterexample :
    _label_row rowC3null = "[Red] #7 Unknown (tid=3)"
    ∧ _label_row rowC3null ≠ "[Red] tid=3" := by
  have h : _label_row rowC3null = "[Red] #7 Unknown (tid=3)" := by decide
  refine ⟨h, ?_⟩
  rw [h]
  decide

/-- Claim C3 (amended): with a nonempty jersey string, a named player
labels as `labelRaw team ("#" ++ jersey) name (toString tid)` — that is,
"[team] #jersey name (tid=tid)" — and a player without a string name
labels the same way with "Unknown" in place of the name; the otherwise
branch of the original claim ("[team] tid=tid") does not exist.  The
cleanliness hypotheses say the field values do not themselves introduce
double spaces or edge whitespace, so the final replace/strip pass leaves
the label intact. -/
theorem C3_label_amended (team jersey name : String) (tid : Int)
    (hj : pyStripS jersey ≠ "") (hn : pyStripS name ≠ "")
    (hc1 : cleanLabel (labelRaw team ("#" ++ jersey) name (toString tid)) = true)
    (hc2 : cleanLabel (labelRaw team ("#" ++ jersey) "Unknown" (toString tid)) = true) :
    _label_row [("team_name", .str team), ("jersey", .str jersey),
                ("player_name", .str name), ("track_id", .int tid)]
      = labelRaw team ("#" ++ jersey) name (toString tid)
    ∧ _label_row [("team_name", .str team), ("jersey", .str jersey),
                  ("player_name", PyVal.none), ("track_id", .int tid)]
      = labelRaw team ("#" ++ jersey) "Unknown" (toString tid) := by
  constructor
  · show pyStripS (pyReplaceDS (labelRaw team
      (if pyStripS jersey ≠ "" then "#" ++ jersey else "")
      (if pyStripS name ≠ "" then name else "Unknown") (toString tid))) = _
    rw [if_pos hj, if_pos hn]
    exact pyStrip_pyReplaceDS_of_clean _ hc1
  · show pyStripS (pyReplaceDS (labelRaw team
      (if pyStripS jersey ≠ "" then "#" ++ jersey else "") "Unknown" (toString tid))) = _
    rw [if_pos hj]
    exact pyStrip_pyReplaceDS_of_clean _ hc2

/-- Claim C3, witness at the spec example row (team Red, jersey 7, name
Kim, track id 3) and its null-name variant. -/
theorem C3_label_amended_witness :
    pyStripS "7" ≠ ""
    ∧ cleanLabel (labelRaw "Red" ("#" ++ "7") "Kim" (toString (3 : Int))) = true
    ∧ _label_row [("team_name", .str "Red"), ("jersey", .str "7"),
                  ("player_name", .str "Kim"), ("track_id", .int 3)]
        = labelRaw "Red" ("#" ++ "7") "Kim" (toString (3 : Int))
    ∧ _label_row [("team_name", .str "Red"), ("jersey", .str "7"),
                  ("player_name", PyVal.none), ("track_id", .int 3)]
        = labelRaw "Red" ("#" ++ "7") "Unknown" (toString (3 : Int)) := by
  obtain ⟨h1, h2⟩ := C3_label_amended "Red" "7" "Kim" 3 (by decide) (by decide)
    (by decide) (by decide)
  exact ⟨by decide, by decide, h1, h2⟩

/-! ## Claim C4 -/

/-- Claim C4: when the filtered series has more than maxRows rows (and
the frame_idx and team_id columns are present), the downsampling step
sorts by (team_id, frame_idx), keeps every k-th row for
k = max 1 (count / maxRows), and outputs exactly
ceil(count / k) = (count + k - 1) / k rows, still in sorted order (a
sublist of the sorted series). -/
theorem C4_downsample (maxRows : Nat) (ts : List Row) (h : maxRows < ts.length) :
    (downsampleTS true true maxRows ts).length
      = (ts.length + max 1 (ts.length / maxRows) - 1) / max 1 (ts.length / maxRows)
    ∧ List.Sorted leTF (downsampleTS true true maxRows ts)
    ∧ List.Sublist (downsampleTS true true maxRows ts) (List.insertionSort leTF ts)
    ∧ downsampleTS true true maxRows ts
      = everyNth (max 1 (ts.length / maxRows)) (List.insertionSort leTF ts) := by
  have hd : downsampleTS true true maxRows ts
      = everyNth (max 1 (ts.length / maxRows)) (List.insertionSort leTF ts) := by
    unfold downsampleTS
    rw [if_pos ⟨h, rfl⟩]
    rfl
  have hk : 0 < max 1 (ts.length / maxRows) :=
    Nat.lt_of_lt_of_le Nat.one_pos (Nat.le_max_left _ _)
  refine ⟨?_, ?_, ?_, hd⟩
  · rw [hd, everyNth_length _ hk _ _ le_rfl, List.length_insertionSort]
  · rw [hd]
    exact everyNth_sorted _ _ (List.sorted_insertionSort leTF ts)
  · rw [hd]
    exact everyNth_sublist _ _ _ le_rfl

/-- Claim C4, witness: 12000 rows with maxRows 5000 give stride 2 and
exactly 6000 output rows, in sorted order. -/
theorem C4_downsample_witness :
    5000 < (mkTS 12000).length
    ∧ max 1 ((mkTS 12000).length / 5000) = 2
    ∧ (downsampleTS true true 5000 (mkTS 12000)).length = 6000
    ∧ List.Sorted leTF (downsampleTS true true 5000 (mkTS 12000)) := by
  have hl : (mkTS 12000).length = 12000 := by
    unfold mkTS
    rw [List.length_map, List.length_range]
  have h5 : 5000 < (mkTS 12000).length := by rw [hl]; norm_num
  obtain ⟨h1, h2, h3, h4⟩ := C4_downsample 5000 (mkTS 12000) h5
  refine ⟨h5, ?_, ?_, h2⟩
  · rw [hl]
    decide
  · rw [h1, hl]
    decide

/-! ## Claim C6 -/

/-- Claim C6, counterexample: a shot event carrying start_frame and
end_frame is rendered by the events tab exactly as loaded — the displayed
row has no derived start_s field (and the view computes no made/miss
summary); src/app.py:316-322 only shows the dataframe or a
placeholder. -/
theorem C6_counterexample :
    tab_events [evC6] = EventsView.table [evC6]
    ∧ pyObjGet evC6 "start_frame" = some (PyVal.int 30)
    ∧ pyObjGet evC6 "start_s" = Option.none :=
  ⟨rfl, rfl, rfl⟩

/-- Claim C6 (amended): the events tab renders the raw event rows
unchanged when there are any, and the placeholder when there are none; it
derives no start_s/end_s seconds and no made/miss summary (those exist
only in other variants of the dashboard, not in this source). -/
theorem C6_events_raw (rows : List PyVal) (h : rows ≠ []) :
    tab_events rows = EventsView.table rows
    ∧ tab_events [] = EventsView.placeholder := by
  refine ⟨?_, rfl⟩
  unfold tab_events
  rw [if_neg (fun hc => h (List.length_eq_zero.mp hc))]

/-- Claim C6, witness at a one-event log. -/
theorem C6_events_raw_witness :
    ([evC6] : List PyVal) ≠ []
    ∧ tab_events [evC6] = EventsView.table [evC6]
    ∧ tab_events [] = EventsView.placeholder := by
  have h : ([evC6] : List PyVal) ≠ [] := by simp
  obtain ⟨h1, h2⟩ := C6_events_raw [evC6] h
  exact ⟨h, h1, h2⟩

/-! ## Claim C7 -/

/-- Claim C7: a report with no event_log key and a report with an empty
event_log list both render the events placeholder — the two are
indistinguishable in the events view, and neither raises
(`report.get("event_log", [])` defaults the missing key to the empty
list). -/
theorem C7_events_placeholder (r1 r2 : Row)
    (h1 : List.lookup "event_log" r1 = Option.none)
    (h2 : List.lookup "event_log" r2 = some (PyVal.list [])) :
    renderEvents r1 = some EventsView.placeholder
    ∧ renderEvents r1 = renderEvents r2 := by
  unfold renderEvents lookupD
  rw [h1, h2]
  exact ⟨rfl, rfl⟩

/-- Claim C7, witness: a report with only a meta section versus a report
with an empty event log. -/
theorem C7_events_placeholder_witness :
    List.lookup "event_log" ([("meta", PyVal.obj [])] : Row) = Option.none
    ∧ renderEvents [("meta", PyVal.obj [])] = some EventsView.placeholder
    ∧ renderEvents [("meta", PyVal.obj [])] = renderEvents [("event_log", PyVal.list [])] := by
  have h1 : List.lookup "event_log" ([("meta", PyVal.obj [])] : Row) = Option.none := rfl
  have h2 : List.lookup "event_log" ([("event_log", PyVal.list [])] : Row)
      = some (PyVal.list []) := rfl
  obtain ⟨a, b⟩ := C7_events_placeholder _ _ h1 h2
  exact ⟨h1, a, b⟩

/-! ## Claim C8 -/

/-- Claim C8: selection by label resolves to the first row of the table
whose label equals the selected string — in particular, with duplicate
track ids (hence identical labels) the first matching row wins,
deterministically (`filtered[filtered["label"] == sel].iloc[0]`). -/
theorem C8_first_match (pre post : List Row) (r : Row)
    (h : ∀ x ∈ pre, _label_row x ≠ _label_row r) :
    selectPlayer (_label_row r) (pre ++ r :: post) = some r := by
  unfold selectPlayer
  rw [List.filter_append]
  have hpre : pre.filter (fun x => _label_row x == _label_row r) = [] := by
    rw [List.filter_eq_nil_iff]
    intro a ha
    simpa using h a ha
  rw [hpre, List.nil_append, List.filter_cons_of_pos (by simp)]
  rfl

/-- Claim C8, witness: a table with a duplicated player row resolves the
shared label to the first copy. -/
theorem C8_first_match_witness :
    (∀ x ∈ [rowOther], _label_row x ≠ _label_row rowDup1)
    ∧ selectPlayer (_label_row rowDup1) ([rowOther] ++ rowDup1 :: [rowDup2])
      = some rowDup1 := by
  have h : ∀ x ∈ [rowOther], _label_row x ≠ _label_row rowDup1 := by decide
  exact ⟨h, C8_first_match [rowOther] [rowDup2] rowDup1 h⟩

/-! ## Claim C9 -/

/-- Claim C9: the teams tab sort key is chosen from the fixed seven-entry
option list whose first entry — the selectbox default (index 0) — is
team_total_dist, the ascending toggle defaults to off, and with those
defaults the rendered table is a permutation of the team rows sorted
descending by total team distance. -/
theorem C9_team_sort_default (rows : List Row)
    (hfin : ∀ r ∈ rows, ∃ q : ℚ,
      toNumericCell (lookupD r "team_total_dist" PyVal.none) = PyFloat.fin q) :
    teamSortOptions = ["team_total_dist", "team_avg_speed", "team_max_speed",
      "team_FG_pct", "avg_spacing", "avg_spread", "var_spread"]
    ∧ teamSortOptions[defaultSortIndex]? = some "team_total_dist"
    ∧ defaultAscending = false
    ∧ (tab_teams "team_total_dist" defaultAscending true rows).Perm rows
    ∧ List.Sorted (fun a b => teamDistVal b ≤ teamDistVal a)
        (tab_teams "team_total_dist" defaultAscending true rows) := by
  have hperm : (List.insertionSort (leCell "team_total_dist" false) rows).Perm rows :=
    List.perm_insertionSort _ _
  refine ⟨rfl, rfl, rfl, hperm, ?_⟩
  have hs := List.sorted_insertionSort (leCell "team_total_dist" false) rows
  show List.Pairwise _ (List.insertionSort (leCell "team_total_dist" false) rows)
  refine List.Pairwise.imp_of_mem ?_ hs
  intro a b ha hb hab
  obtain ⟨qa, hqa⟩ := hfin a (hperm.subset ha)
  obtain ⟨qb, hqb⟩ := hfin b (hperm.subset hb)
  unfold leCell cellKey at hab
  rw [hqa, hqb] at hab
  unfold encCell at hab
  rw [Prod.Lex.le_iff] at hab
  simp only [teamDistVal, hqa, hqb]
  rcases hab with hlt | ⟨-, hle⟩
  · exact absurd hlt (lt_irrefl _)
  · simpa using hle

/-- Claim C9, witness on two finite-distance team rows. -/
theorem C9_team_sort_default_witness :
    (∀ r ∈ [teamRowA, teamRowB], ∃ q : ℚ,
      toNumericCell (lookupD r "team_total_dist" PyVal.none) = PyFloat.fin q)
    ∧ (tab_teams "team_total_dist" defaultAscending true [teamRowA, teamRowB]).Perm
        [teamRowA, teamRowB]
    ∧ List.Sorted (fun a b => teamDistVal b ≤ teamDistVal a)
        (tab_teams "team_total_dist" defaultAscending true [teamRowA, teamRowB]) := by
  have hfin : ∀ r ∈ [teamRowA, teamRowB], ∃ q : ℚ,
      toNumericCell (lookupD r "team_total_dist" PyVal.none) = PyFloat.fin q := by
    intro r hr
    rcases List.mem_cons.mp hr with h | h
    · subst h
      exact ⟨((120 : Int) : ℚ), rfl⟩
    · rcases List.mem_cons.mp h with h2 | h2
      · subst h2
        exact ⟨((300 : Int) : ℚ), rfl⟩
      · simp at h2
  obtain ⟨-, -, -, hperm, hsort⟩ := C9_team_sort_default [teamRowA, teamRowB] hfin
  exact ⟨hfin, hperm, hsort⟩

/-! ## Claim C10 -/

/-- Claim C10: when the series has no frame_idx column the downsampling
step is skipped entirely, even when the row count exceeds the maximum-row
threshold — the tab then processes and displays all rows. -/
theorem C10_no_frame_idx_skip (hasTeam : Bool) (maxRows : Nat) (ts : List Row)
    (h : maxRows < ts.length) :
    downsampleTS false hasTeam maxRows ts = ts := by
  unfold downsampleTS
  rw [if_neg]
  rintro ⟨-, hfalse⟩
  exact Bool.false_ne_true hfalse

/-- Claim C10, witness: two rows without a frame_idx column survive a
threshold of one. -/
theorem C10_no_frame_idx_skip_witness :
    1 < tsNoFrame.length
    ∧ downsampleTS false true 1 tsNoFrame = tsNoFrame := by
  have h : 1 < tsNoFrame.length := by simp [tsNoFrame]
  exact ⟨h, C10_no_frame_idx_skip true 1 tsNoFrame h⟩
